import Mathlib

/-!
Verification development for the commodity price-alert replay engine.

The embedding translates the simulation subsystem (simulation.go: the
SimulationManager with its start/stop/status handlers, the producer/consumer
replay pipeline, computeRepresentativePrice and checkAndTriggerAlerts) and
the ledger operations it consumes (service.go: ListAlerts, TriggerAlert).
Prices are modelled as exact rationals; wall-clock timestamps and the audit
history table are not part of the observable state modelled here.
-/

/-- One market-data row arriving through the simulated feed
(struct PriceFeedMessage in simulation.go). The two mostly-price fields are
nullable pointers in the source and are modelled as Option. -/
structure PriceFeedMessage where
  date : String
  location : String
  low_price : ℚ
  high_price : ℚ
  mostly_low_price : Option ℚ
  mostly_high_price : Option ℚ
  properties : String
  deriving DecidableEq

/-- The per-row midpoint used inside the loop of computeRepresentativePrice:
when both mostly prices are non-nil their midpoint is used, otherwise the
midpoint of low and high. -/
def midPrice (row : PriceFeedMessage) : ℚ :=
  match row.mostly_low_price, row.mostly_high_price with
  | some ml, some mh => (ml + mh) / 2
  | _, _ => (row.low_price + row.high_price) / 2

/-- computeRepresentativePrice from simulation.go: zero for an empty slice,
otherwise the running total of per-row midpoints divided by the row count. -/
def computeRepresentativePrice (rows : List PriceFeedMessage) : ℚ :=
  if rows.length = 0 then 0
  else rows.foldl (fun total row => total + midPrice row) 0 / (rows.length : ℚ)

/-- Midpoint rule written from the words of the spec (section 4.1): if both
mostly prices are present use their midpoint, otherwise fall back to the
midpoint of low and high. Presence is Option.isSome, so a present value of
zero still counts as present. -/
def specMidpoint (row : PriceFeedMessage) : ℚ :=
  if h : row.mostly_low_price.isSome ∧ row.mostly_high_price.isSome then
    (row.mostly_low_price.get h.1 + row.mostly_high_price.get h.2) / 2
  else
    (row.low_price + row.high_price) / 2

/-- Representative price written from the words of the spec (section 4.1):
empty input gives 0, otherwise the arithmetic mean of the per-observation
midpoints. -/
def specRepresentativePrice (rows : List PriceFeedMessage) : ℚ :=
  if rows = [] then 0
  else (rows.map specMidpoint).sum / (rows.length : ℚ)

/-- The trigger decision inlined in checkAndTriggerAlerts: condition above
triggers when price is at least the threshold, condition below when price is
at most the threshold, anything else never triggers. -/
def shouldTrigger (condition : String) (threshold price : ℚ) : Bool :=
  if condition = "above" ∧ price ≥ threshold then true
  else if condition = "below" ∧ price ≤ threshold then true
  else false

/-- The speed-parameter handling in HandleStartSimulation: the delay starts
at 500; a supplied value replaces it only when it parses and lies in
[10, 10000]. none models an absent or unparsable speed query parameter. -/
def effectiveSpeedMs (speedParam : Option Int) : Int :=
  match speedParam with
  | none => 500
  | some v => if 10 ≤ v ∧ v ≤ 10000 then v else 500

/-- dateGroup from simulation.go: all market-data rows for a single date. -/
structure dateGroup where
  date : String
  rows : List PriceFeedMessage
  deriving DecidableEq

/-- Observable actions of the producer goroutine in runSimulation: a hand-off
of a group into the channel, or a pacing wait. -/
inductive ProducerAction where
  | handoff (g : dateGroup)
  | wait
  deriving DecidableEq

/-- The producer loop of runSimulation on the path with no cancellation:
for each group it sends the group into the channel and then waits the pacing
delay, including after the final group. -/
def producerTrace : List dateGroup → List ProducerAction
  | [] => []
  | g :: rest => ProducerAction.handoff g :: ProducerAction.wait :: producerTrace rest

/-- Number of hand-offs in a producer trace. -/
def countHandoffs (tr : List ProducerAction) : Nat :=
  tr.countP fun a => match a with | .handoff _ => true | .wait => false

/-- Number of pacing waits in a producer trace. -/
def countWaits (tr : List ProducerAction) : Nat :=
  tr.countP fun a => match a with | .handoff _ => false | .wait => true

/-- A concrete observation used by the permutation witness. -/
def obsCairo : PriceFeedMessage :=
  { date := "2024-01-02", location := "Cairo", low_price := 30, high_price := 34,
    mostly_low_price := none, mostly_high_price := none, properties := "" }

/-- A second concrete observation used by the permutation witness. -/
def obsMemphis : PriceFeedMessage :=
  { date := "2024-01-02", location := "Memphis", low_price := 32, high_price := 36,
    mostly_low_price := some 20, mostly_high_price := some 24, properties := "" }

/-- An alert row as stored by the ledger (a price_alerts row joined with its
commodity, struct PriceAlert in service.go). The Boolean deleted models a
non-null deleted_at column. -/
structure LedgerAlert where
  id : Int
  client_id : Int
  user_id : Int
  commodity_code : String
  condition : String
  threshold_price : ℚ
  status : String
  notes : String
  triggered_count : Int
  deleted : Bool
  deriving DecidableEq

/-- ListAlerts from service.go: rows of the client that are not soft-deleted,
optionally filtered by status and commodity code (an empty string disables a
filter, because the SQL builder omits that clause). Listing order is the
ledger order; the source orders by created_at, a column the claims do not
depend on. -/
def listAlerts (led : List LedgerAlert) (clientID : Int) (status commodityCode : String) :
    List LedgerAlert :=
  led.filter fun a =>
    a.client_id == clientID && !a.deleted &&
    (status == "" || a.status == status) &&
    (commodityCode == "" || a.commodity_code == commodityCode)

/-- The UPDATE statement of TriggerAlert: every row with the given id gets
status triggered and an incremented triggered_count. -/
def triggerUpdate (alertID : Int) (a : LedgerAlert) : LedgerAlert :=
  if a.id = alertID then
    { a with status := "triggered", triggered_count := a.triggered_count + 1 }
  else a

/-- TriggerAlert from service.go: the initial SELECT requires a row with the
given id, the given client and no soft delete — the status of the row is not
examined. When such a row exists the update is applied, otherwise the call
fails with not-found. The trigger price and the audit-history insert are not
part of the ledger state modelled here. -/
def triggerAlert (led : List LedgerAlert) (alertID clientID : Int) :
    Except Unit (List LedgerAlert) :=
  if led.any (fun a => a.id == alertID && a.client_id == clientID && !a.deleted) then
    Except.ok (led.map (triggerUpdate alertID))
  else Except.error ()

/-- TriggeredAlertInfo from simulation.go. -/
structure TriggeredAlertInfo where
  alert_id : Int
  condition : String
  threshold_price : ℚ
  trigger_price : ℚ
  notes : String
  deriving DecidableEq

/-- The TriggeredAlertInfo literal built in checkAndTriggerAlerts for a
successfully triggered alert. -/
def mkTriggeredAlertInfo (a : LedgerAlert) (price : ℚ) : TriggeredAlertInfo :=
  { alert_id := a.id, condition := a.condition, threshold_price := a.threshold_price,
    trigger_price := price, notes := a.notes }

/-- The loop body of checkAndTriggerAlerts over the pre-fetched alert list:
for each alert whose condition is met the ledger trigger transition runs on
the current ledger state; on failure the alert is skipped and the loop
continues, on success the info record is appended and the ledger advances. -/
def triggerLoop (clientID : Int) (price : ℚ) :
    List LedgerAlert → List LedgerAlert → List TriggeredAlertInfo × List LedgerAlert
  | [], led => ([], led)
  | a :: rest, led =>
    if shouldTrigger a.condition a.threshold_price price then
      match triggerAlert led a.id clientID with
      | Except.error _ => triggerLoop clientID price rest led
      | Except.ok led2 =>
        let step := triggerLoop clientID price rest led2
        (mkTriggeredAlertInfo a price :: step.1, step.2)
    else triggerLoop clientID price rest led

/-- checkAndTriggerAlerts from simulation.go against the functional ledger:
list the active CORN alerts of the client, then run the trigger loop over
that snapshot. -/
def checkAndTriggerAlerts (led : List LedgerAlert) (clientID : Int) (price : ℚ) :
    List TriggeredAlertInfo × List LedgerAlert :=
  triggerLoop clientID price (listAlerts led clientID "active" "CORN") led

/-- SimulationEvent from simulation.go. -/
structure SimulationEvent where
  date : String
  representative_price : ℚ
  row_count : Nat
  triggered_alerts : List TriggeredAlertInfo
  deriving DecidableEq

/-- processDateGroup from simulation.go against the functional ledger:
compute the representative price, evaluate the alerts, and build the event
for the date. -/
def processDateGroup (led : List LedgerAlert) (clientID : Int) (g : dateGroup) :
    SimulationEvent × List LedgerAlert :=
  let repPrice := computeRepresentativePrice g.rows
  let checked := checkAndTriggerAlerts led clientID repPrice
  ({ date := g.date, representative_price := repPrice, row_count := g.rows.length,
     triggered_alerts := checked.1 }, checked.2)

/-- The consumer loop of runSimulation on the path with no cancellation:
each group is processed in order and its event appended to the run results.
The single-slot channel delivers groups in producer order, so the sequential
composition is faithful to the pipeline. -/
def replay (clientID : Int) :
    List dateGroup → List LedgerAlert → List SimulationEvent × List LedgerAlert
  | [], led => ([], led)
  | g :: rest, led =>
    let processed := processDateGroup led clientID g
    let tail := replay clientID rest processed.2
    (processed.1 :: tail.1, tail.2)

/-- Whether the event lists the given alert id among its triggered alerts. -/
def eventMentions (aid : Int) (e : SimulationEvent) : Bool :=
  e.triggered_alerts.any fun info => info.alert_id == aid

/-- No alert with the given id is in status active anywhere in the ledger. -/
def noActive (aid : Int) (led : List LedgerAlert) : Prop :=
  ∀ a ∈ led, a.id = aid → a.status ≠ "active"

/-- The loop body of checkAndTriggerAlerts with the outcome of each ledger
trigger transition abstracted by a success predicate: a failed transition is
skipped and evaluation continues with the remaining alerts. -/
def triggerLoopWith (trigOk : LedgerAlert → Bool) (price : ℚ) :
    List LedgerAlert → List TriggeredAlertInfo
  | [] => []
  | a :: rest =>
    if shouldTrigger a.condition a.threshold_price price then
      if trigOk a then mkTriggeredAlertInfo a price :: triggerLoopWith trigOk price rest
      else triggerLoopWith trigOk price rest
    else triggerLoopWith trigOk price rest

/-- checkAndTriggerAlerts with the listing outcome injected: a failed listing
propagates as an error, a successful one feeds the trigger loop. -/
def checkAndTriggerAlertsWith (listResult : Except Unit (List LedgerAlert))
    (trigOk : LedgerAlert → Bool) (price : ℚ) : Except Unit (List TriggeredAlertInfo) :=
  match listResult with
  | Except.error e => Except.error e
  | Except.ok alerts => Except.ok (triggerLoopWith trigOk price alerts)

/-- processDateGroup with the listing outcome injected: when the alert check
fails the event is still recorded, carrying the representative price and the
row count but no triggered alerts. -/
def processDateGroupWith (listResult : Except Unit (List LedgerAlert))
    (trigOk : LedgerAlert → Bool) (g : dateGroup) : SimulationEvent :=
  let repPrice := computeRepresentativePrice g.rows
  match checkAndTriggerAlertsWith listResult trigOk repPrice with
  | Except.error _ =>
    { date := g.date, representative_price := repPrice, row_count := g.rows.length,
      triggered_alerts := [] }
  | Except.ok triggered =>
    { date := g.date, representative_price := repPrice, row_count := g.rows.length,
      triggered_alerts := triggered }

/-- The lifecycle-relevant fields of the SimulationManager: the running flag
and the Status field of the results record. -/
structure RunControl where
  running : Bool
  status : String
  deriving DecidableEq

/-- Error surfaced by HandleStopSimulation when no run is active. -/
inductive StopError where
  | notRunning
  deriving DecidableEq

/-- HandleStopSimulation from simulation.go: with no run active it fails with
not-running and changes nothing; otherwise it clears the running flag and
sets the result status to stopped (the cancellation channel close is the
signal, not state modelled here). -/
def handleStopSimulation (s : RunControl) : Except StopError RunControl :=
  if s.running = false then Except.error StopError.notRunning
  else Except.ok { running := false, status := "stopped" }

/-- The deferred finalizer of runSimulation: it clears the running flag and
promotes the status to completed only when it still reads running. -/
def finalizeRun (s : RunControl) : RunControl :=
  { running := false,
    status := if s.status = "running" then "completed" else s.status }

/-- Lifecycle events that can touch the run state after a Stop, short of a
new Start: a consumer per-date update (which writes counters and events but
never the Status field), the pipeline finalizer, and a further Stop call. -/
inductive PipelineEvent where
  | consumeDate
  | finalize
  | stopAttempt
  deriving DecidableEq

/-- Effect of one lifecycle event on the run-control state. A failed Stop
leaves the state unchanged, exactly as the handler returns before mutating. -/
def stepEvent (s : RunControl) : PipelineEvent → RunControl
  | PipelineEvent.consumeDate => s
  | PipelineEvent.finalize => finalizeRun s
  | PipelineEvent.stopAttempt =>
    match handleStopSimulation s with
    | Except.ok s2 => s2
    | Except.error _ => s

/-- SimulationResults from simulation.go (the StartedAt wall-clock timestamp
is not modelled). -/
structure SimulationResults where
  status : String
  current_date : String
  total_dates : Nat
  processed_dates : Nat
  total_rows : Nat
  processed_rows : Nat
  alerts_triggered : Nat
  events : List SimulationEvent
  deriving DecidableEq

/-- The results record built by HandleStartSimulation at launch. -/
def initialResults (groups : List dateGroup) (totalRows : Nat) : SimulationResults :=
  { status := "running", current_date := "", total_dates := groups.length,
    processed_dates := 0, total_rows := totalRows, processed_rows := 0,
    alerts_triggered := 0, events := [] }

/-- The stored state of the SimulationManager seen by Start: the running flag
and the results slot (nil before the first run). -/
structure ManagerState where
  running : Bool
  results : Option SimulationResults
  deriving DecidableEq

/-- The error outcomes of HandleStartSimulation, in the order the handler
checks them. -/
inductive StartError where
  | alreadyRunning
  | missingUserId
  | invalidUserIdFormat
  | invalidUser
  | loadFailed
  | noData
  deriving DecidableEq

/-- HandleStartSimulation from simulation.go with its external collaborators
injected: the user-id parameter (none when absent, some none when it fails to
parse), the users-table lookup returning the client id of an active user, the
speed parameter, and the outcome of load2024Data. Every error path returns
before the manager state is touched; the success path flips the running flag
and installs a fresh results record, answering with total dates, total rows
and the effective speed. -/
def handleStartSimulation (st : ManagerState) (userIdParam : Option (Option Int))
    (userLookup : Int → Option Int) (speedParam : Option Int)
    (loadResult : Except Unit (List dateGroup × Nat)) :
    ManagerState × Except StartError (Nat × Nat × Int) :=
  if st.running then (st, Except.error StartError.alreadyRunning)
  else
    match userIdParam with
    | none => (st, Except.error StartError.missingUserId)
    | some none => (st, Except.error StartError.invalidUserIdFormat)
    | some (some userID) =>
      match userLookup userID with
      | none => (st, Except.error StartError.invalidUser)
      | some _clientID =>
        let speedMs := effectiveSpeedMs speedParam
        match loadResult with
        | Except.error _ => (st, Except.error StartError.loadFailed)
        | Except.ok (groups, totalRows) =>
          if groups.length = 0 then (st, Except.error StartError.noData)
          else ({ running := true, results := some (initialResults groups totalRows) },
                Except.ok (groups.length, totalRows, speedMs))

/-- A concrete paused alert used by the trigger witness. -/
def pausedCornAlert : LedgerAlert :=
  { id := 7, client_id := 3, user_id := 1, commodity_code := "CORN",
    condition := "above", threshold_price := 30, status := "paused", notes := "",
    triggered_count := 2, deleted := false }

/-- Folding the midpoint accumulation from any starting total equals the
starting total plus the sum of midpoints. -/
lemma foldl_add_midPrice (rows : List PriceFeedMessage) (c : ℚ) :
    rows.foldl (fun total row => total + midPrice row) c = c + (rows.map midPrice).sum := by
  induction rows generalizing c with
  | nil => simp
  | cons r rest ih =>
    rw [List.foldl_cons, ih, List.map_cons, List.sum_cons]
    ring

/-- Closed form of computeRepresentativePrice as a sum divided by a length
(the empty case agrees because division by zero is zero in ℚ). -/
lemma computeRepresentativePrice_eq_sum_div (rows : List PriceFeedMessage) :
    computeRepresentativePrice rows = (rows.map midPrice).sum / (rows.length : ℚ) := by
  unfold computeRepresentativePrice
  by_cases h : rows.length = 0
  · rw [List.length_eq_zero] at h
    subst h
    simp
  · rw [if_neg h, foldl_add_midPrice, zero_add]

/-- The spec-side midpoint coincides with the one implemented in the loop. -/
lemma specMidpoint_eq_midPrice (row : PriceFeedMessage) :
    specMidpoint row = midPrice row := by
  cases hml : row.mostly_low_price <;> cases hmh : row.mostly_high_price <;>
    simp [specMidpoint, midPrice, hml, hmh]

/-- Claim C2: for every list of observations the representative price equals
the arithmetic mean of per-observation midpoints, where the midpoint prefers
the mostly prices when both are present (even when a present value is zero)
and otherwise uses the low/high midpoint; the empty list yields zero. -/
theorem representativePrice_spec_refinement (rows : List PriceFeedMessage) :
    computeRepresentativePrice rows = specRepresentativePrice rows := by
  rw [computeRepresentativePrice_eq_sum_div]
  unfold specRepresentativePrice
  by_cases h : rows = []
  · subst h; simp
  · rw [if_neg h]
    congr 1
    exact congrArg List.sum (List.map_congr_left fun r _ => (specMidpoint_eq_midPrice r).symm)

/-- Claim C3: the trigger decision is inclusive at the boundary: above
triggers exactly when the price is at least the threshold, below exactly when
the price is at most the threshold, and any other condition never triggers. -/
theorem shouldTrigger_inclusive_boundary (c : String) (t p : ℚ)
    (hab : c ≠ "above") (hbe : c ≠ "below") :
    (shouldTrigger "above" t p = true ↔ t ≤ p) ∧
    (shouldTrigger "below" t p = true ↔ p ≤ t) ∧
    shouldTrigger c t p = false := by
  refine ⟨?_, ?_, ?_⟩ <;>
    simp [shouldTrigger, hab, hbe, ge_iff_le]

/-- Witness for C3 at concrete inputs, including the boundary price equal to
the threshold and a condition value that is neither above nor below. -/
theorem shouldTrigger_inclusive_boundary_witness :
    (shouldTrigger "above" 35 35 = true ↔ (35 : ℚ) ≤ 35) ∧
    (shouldTrigger "below" 35 35 = true ↔ (35 : ℚ) ≤ 35) ∧
    shouldTrigger "between" 35 35 = false :=
  shouldTrigger_inclusive_boundary "between" 35 35 (by decide) (by decide)

/-- Counterexample to claim C4: the code does not clamp an out-of-range speed
request to the nearest bound; a request of 5 yields the default 500 rather
than 10, and a request of 20000 yields 500 rather than 10000. -/
theorem effectiveSpeed_not_clamped_counterexample :
    effectiveSpeedMs (some 5) = 500 ∧ effectiveSpeedMs (some 5) ≠ 10 ∧
    effectiveSpeedMs (some 20000) = 500 ∧ effectiveSpeedMs (some 20000) ≠ 10000 := by
  decide

/-- Claim C4 as amended: an absent speed yields the default 500; a supplied
value is used as-is when it lies in [10, 10000] and is otherwise ignored in
favour of the default; the effective delay always lies in [10, 10000]. -/
theorem effectiveSpeed_default_or_in_range (v : Int) :
    effectiveSpeedMs none = 500 ∧
    effectiveSpeedMs (some v) = (if 10 ≤ v ∧ v ≤ 10000 then v else 500) ∧
    10 ≤ effectiveSpeedMs (some v) ∧ effectiveSpeedMs (some v) ≤ 10000 := by
  refine ⟨rfl, rfl, ?_, ?_⟩ <;>
    · unfold effectiveSpeedMs
      split <;> omega

/-- Counterexample to claim C5: the producer waits the pacing delay after the
final hand-off as well, so a one-group run performs 1 wait, not 0. -/
theorem producer_wait_after_last_counterexample :
    countWaits (producerTrace [⟨"2024-01-02", []⟩]) = 1 ∧
    countWaits (producerTrace [⟨"2024-01-02", []⟩]) ≠ 0 := by
  decide

/-- Claim C5 as amended: on an uncancelled run over n groups the producer
performs exactly n hand-offs and exactly n pacing waits, one wait after every
hand-off including the last. -/
theorem producer_handoffs_and_waits (groups : List dateGroup) :
    countHandoffs (producerTrace groups) = groups.length ∧
    countWaits (producerTrace groups) = groups.length := by
  induction groups with
  | nil => simp [producerTrace, countHandoffs, countWaits]
  | cons g rest ih =>
    simp only [producerTrace, countHandoffs, countWaits] at ih ⊢
    simp [List.countP_cons, ih.1, ih.2]

/-- Claim C8: the representative price depends only on the multiset of
observations; permuting the input list does not change the result. -/
theorem representativePrice_perm_invariant (rows rows2 : List PriceFeedMessage)
    (h : rows.Perm rows2) :
    computeRepresentativePrice rows = computeRepresentativePrice rows2 := by
  rw [computeRepresentativePrice_eq_sum_div, computeRepresentativePrice_eq_sum_div,
    h.length_eq, (h.map midPrice).sum_eq]

/-- Witness for C8: swapping two concrete observations leaves the
representative price unchanged. -/
theorem representativePrice_perm_invariant_witness :
    computeRepresentativePrice [obsCairo, obsMemphis] =
      computeRepresentativePrice [obsMemphis, obsCairo] :=
  representativePrice_perm_invariant _ _ (List.Perm.swap obsMemphis obsCairo [])

/-- The updated row written by the trigger transition for its own id carries
status triggered, so no row with that id is left active. -/
lemma noActive_after_triggerUpdate_self (aid : Int) (led : List LedgerAlert) :
    noActive aid (led.map (triggerUpdate aid)) := by
  intro b hb hid
  obtain ⟨b0, hb0, rfl⟩ := List.mem_map.mp hb
  by_cases h0 : b0.id = aid
  · simp [triggerUpdate, h0]
  · simp only [triggerUpdate, if_neg h0] at hid
    exact absurd hid h0

/-- The trigger update never writes status active, so absence of an active
row with a given id is preserved. -/
lemma noActive_map_triggerUpdate (aid bid : Int) (led : List LedgerAlert)
    (h : noActive aid led) : noActive aid (led.map (triggerUpdate bid)) := by
  intro b hb hid
  obtain ⟨b0, hb0, rfl⟩ := List.mem_map.mp hb
  by_cases h0 : b0.id = bid
  · simp [triggerUpdate, h0]
  · simp only [triggerUpdate, if_neg h0] at hid ⊢
    exact h b0 hb0 hid

/-- A successful ledger trigger transition preserves the absence of an active
row with a given id. -/
lemma noActive_triggerAlert (aid bid cid : Int) (led led2 : List LedgerAlert)
    (h : noActive aid led) (ht : triggerAlert led bid cid = Except.ok led2) :
    noActive aid led2 := by
  unfold triggerAlert at ht
  split at ht
  · injection ht with h2
    subst h2
    exact noActive_map_triggerUpdate aid bid led h
  · exact Except.noConfusion ht

/-- The alert-evaluation loop preserves the absence of an active row with a
given id, whatever alerts it processes. -/
lemma noActive_triggerLoop (aid cid : Int) (price : ℚ) (alerts led : List LedgerAlert)
    (h : noActive aid led) :
    noActive aid (triggerLoop cid price alerts led).2 := by
  induction alerts generalizing led with
  | nil => simpa [triggerLoop] using h
  | cons a rest ih =>
    unfold triggerLoop
    split
    · cases htr : triggerAlert led a.id cid with
      | error e =>
        exact ih led h
      | ok led2 =>
        exact ih led2 (noActive_triggerAlert aid a.id cid led led2 h htr)
    · exact ih led h

/-- When none of the evaluated alerts carries the given id, no triggered-info
record of the loop carries it either. -/
lemma triggerLoop_no_mention (aid cid : Int) (price : ℚ) (alerts led : List LedgerAlert)
    (h : ∀ a ∈ alerts, a.id ≠ aid) :
    ∀ info ∈ (triggerLoop cid price alerts led).1, info.alert_id ≠ aid := by
  induction alerts generalizing led with
  | nil => simp [triggerLoop]
  | cons a rest ih =>
    have hrest : ∀ b ∈ rest, b.id ≠ aid := fun b hb => h b (List.mem_cons_of_mem a hb)
    unfold triggerLoop
    split
    · cases htr : triggerAlert led a.id cid with
      | error e =>
        exact ih led hrest
      | ok led2 =>
        intro info hi
        rcases List.mem_cons.mp hi with hhd | htl
        · subst hhd
          exact h a (List.mem_cons_self a rest)
        · exact ih led2 hrest info htl
    · exact ih led hrest

/-- Once some triggered-info record of the loop carries the given id, the
resulting ledger has no active row with that id. -/
lemma triggerLoop_mention_noActive (aid cid : Int) (price : ℚ)
    (alerts led : List LedgerAlert)
    (h : ∃ info ∈ (triggerLoop cid price alerts led).1, info.alert_id = aid) :
    noActive aid (triggerLoop cid price alerts led).2 := by
  induction alerts generalizing led with
  | nil =>
    simp [triggerLoop] at h
  | cons a rest ih =>
    by_cases hst : shouldTrigger a.condition a.threshold_price price = true
    · cases htr : triggerAlert led a.id cid with
      | error e =>
        simp only [triggerLoop, if_pos hst, htr] at h ⊢
        exact ih led h
      | ok led2 =>
        simp only [triggerLoop, if_pos hst, htr] at h ⊢
        obtain ⟨info, hi, hid⟩ := h
        rcases List.mem_cons.mp hi with hhd | htl
        · have hled2 : noActive aid led2 := by
            have hval : (mkTriggeredAlertInfo a price).alert_id = a.id := rfl
            rw [hhd, hval] at hid
            unfold triggerAlert at htr
            split at htr
            · injection htr with h2
              subst h2
              rw [← hid]
              exact noActive_after_triggerUpdate_self a.id led
            · exact Except.noConfusion htr
          exact noActive_triggerLoop aid cid price rest led2 hled2
        · exact ih led2 ⟨info, htl, hid⟩
    · simp only [triggerLoop, if_neg hst] at h ⊢
      exact ih led h

/-- Every alert returned by the active listing is a ledger row in status
active. -/
lemma mem_listAlerts_active (led : List LedgerAlert) (cid : Int) (a : LedgerAlert)
    (ha : a ∈ listAlerts led cid "active" "CORN") : a ∈ led ∧ a.status = "active" := by
  unfold listAlerts at ha
  obtain ⟨hmem, hfilt⟩ := List.mem_filter.mp ha
  refine ⟨hmem, ?_⟩
  simp only [Bool.and_eq_true, Bool.or_eq_true, beq_iff_eq] at hfilt
  rcases hfilt.1.2 with hcontra | hactive
  · exact absurd hcontra (by decide)
  · exact hactive

/-- With no active row carrying the given id, the per-date evaluation neither
reports that id nor reintroduces an active row with it. -/
lemma checkAndTrigger_noActive (aid cid : Int) (price : ℚ) (led : List LedgerAlert)
    (h : noActive aid led) :
    (∀ info ∈ (checkAndTriggerAlerts led cid price).1, info.alert_id ≠ aid) ∧
    noActive aid (checkAndTriggerAlerts led cid price).2 := by
  constructor
  · apply triggerLoop_no_mention
    intro a ha haid
    obtain ⟨hmem, hact⟩ := mem_listAlerts_active led cid a ha
    exact h a hmem haid hact
  · exact noActive_triggerLoop aid cid price _ led h

/-- With no active row carrying the given id, no event of the remaining
replay mentions that id. -/
lemma replay_noActive_no_mention (aid cid : Int) (groups : List dateGroup)
    (led : List LedgerAlert) (h : noActive aid led) :
    (replay cid groups led).1.countP (eventMentions aid) = 0 := by
  induction groups generalizing led with
  | nil => simp [replay]
  | cons g rest ih =>
    unfold replay
    have hc := checkAndTrigger_noActive aid cid (computeRepresentativePrice g.rows) led h
    have hev : eventMentions aid (processDateGroup led cid g).1 = false := by
      apply Bool.eq_false_iff.mpr
      intro hm
      have hfst : (processDateGroup led cid g).1.triggered_alerts =
          (checkAndTriggerAlerts led cid (computeRepresentativePrice g.rows)).1 := rfl
      unfold eventMentions at hm
      rw [hfst] at hm
      simp only [List.any_eq_true, beq_iff_eq] at hm
      obtain ⟨info, hi, hid⟩ := hm
      exact absurd hid (hc.1 info hi)
    have htail : (replay cid rest (processDateGroup led cid g).2).1.countP (eventMentions aid) = 0 :=
      ih (processDateGroup led cid g).2 hc.2
    simp [List.countP_cons, hev, htail]

/-- Claim C1: over a whole replay each alert id is mentioned by the
triggered-alerts list of at most one simulation event: the per-date
evaluation lists only alerts in status active, a successful trigger leaves
every row of that id in status triggered, and no replay step ever writes
status active. -/
theorem alert_triggers_at_most_once (cid aid : Int) (groups : List dateGroup)
    (led : List LedgerAlert) :
    ((replay cid groups led).1.countP (eventMentions aid)) ≤ 1 := by
  induction groups generalizing led with
  | nil => simp [replay]
  | cons g rest ih =>
    unfold replay
    by_cases hm : eventMentions aid (processDateGroup led cid g).1 = true
    · have hna : noActive aid (processDateGroup led cid g).2 := by
        unfold eventMentions processDateGroup at hm
        simp only [List.any_eq_true, beq_iff_eq] at hm
        exact triggerLoop_mention_noActive aid cid
          (computeRepresentativePrice g.rows) _ led hm
      have htail := replay_noActive_no_mention aid cid rest _ hna
      simp [List.countP_cons, hm, htail]
    · have hm2 : eventMentions aid (processDateGroup led cid g).1 = false :=
        Bool.not_eq_true _ ▸ (by simpa using hm)
      have := ih (processDateGroup led cid g).2
      simp only [List.countP_cons, hm2, if_false]
      simpa using this

/-- Claim C9: a failed ledger trigger transition only skips that alert: the
returned records are exactly the evaluated alerts whose condition was met and
whose transition succeeded, in evaluation order; and when listing the active
alerts fails entirely, the event of the date is still recorded with its
representative price and row count and an empty triggered-alerts list. -/
theorem per_alert_failure_isolated (trigOk : LedgerAlert → Bool) (price : ℚ)
    (alerts : List LedgerAlert) (g : dateGroup) :
    triggerLoopWith trigOk price alerts =
      (alerts.filter fun a => shouldTrigger a.condition a.threshold_price price && trigOk a).map
        (fun a => mkTriggeredAlertInfo a price) ∧
    processDateGroupWith (Except.error ()) trigOk g =
      { date := g.date, representative_price := computeRepresentativePrice g.rows,
        row_count := g.rows.length, triggered_alerts := [] } := by
  constructor
  · induction alerts with
    | nil => simp [triggerLoopWith]
    | cons a rest ih =>
      by_cases h1 : shouldTrigger a.condition a.threshold_price price = true
      · by_cases h2 : trigOk a = true
        · simp [triggerLoopWith, List.filter_cons, h1, h2, ih]
        · simp [triggerLoopWith, List.filter_cons, h1, h2, ih]
      · simp [triggerLoopWith, List.filter_cons, h1, ih]
  · rfl

/-- Claim C10: the ledger trigger transition never examines the status of the
alert: any non-deleted row of the tenant with the requested id makes the call
succeed, after which that row carries status triggered with an incremented
triggered count — so even a paused or already-triggered alert is
re-triggerable through the direct trigger interface. -/
theorem triggerAlert_ignores_status (led : List LedgerAlert) (aid cid : Int)
    (a : LedgerAlert) (ha : a ∈ led) (hid : a.id = aid) (hcl : a.client_id = cid)
    (hdel : a.deleted = false) :
    triggerAlert led aid cid = Except.ok (led.map (triggerUpdate aid)) ∧
    (triggerUpdate aid a).status = "triggered" ∧
    (triggerUpdate aid a).triggered_count = a.triggered_count + 1 := by
  refine ⟨?_, ?_, ?_⟩
  · unfold triggerAlert
    rw [if_pos]
    exact List.any_eq_true.mpr ⟨a, ha, by simp [hid, hcl, hdel]⟩
  · simp [triggerUpdate, hid]
  · simp [triggerUpdate, hid]

/-- Witness for C10: a concrete paused CORN alert is successfully triggered
by the direct trigger interface. -/
theorem triggerAlert_ignores_status_witness :
    triggerAlert [pausedCornAlert] 7 3 =
      Except.ok ([pausedCornAlert].map (triggerUpdate 7)) ∧
    (triggerUpdate 7 pausedCornAlert).status = "triggered" ∧
    (triggerUpdate 7 pausedCornAlert).triggered_count = pausedCornAlert.triggered_count + 1 :=
  triggerAlert_ignores_status [pausedCornAlert] 7 3 pausedCornAlert
    (List.mem_singleton.mpr rfl) rfl rfl rfl

/-- A state that is stopped and not running stays that way under any sequence
of further pipeline events. -/
lemma stopped_invariant (evs : List PipelineEvent) (s : RunControl)
    (hr : s.running = false) (hs : s.status = "stopped") :
    (evs.foldl stepEvent s).running = false ∧ (evs.foldl stepEvent s).status = "stopped" := by
  induction evs generalizing s with
  | nil => exact ⟨hr, hs⟩
  | cons e rest ih =>
    rw [List.foldl_cons]
    cases e with
    | consumeDate => exact ih s hr hs
    | finalize =>
      refine ih _ rfl ?_
      simp [stepEvent, finalizeRun, hs]
    | stopAttempt =>
      refine ih _ ?_ ?_ <;>
        simp [stepEvent, handleStopSimulation, hr, hs]

/-- Claim C6: stopping with no active run fails with not-running and mutates
nothing; stopping an active run clears the running flag and marks the run
stopped; and from a stopped state no later pipeline event — consumer update,
pipeline finalizer or repeated stop — ever makes the status completed or
running again, short of a new Start. -/
theorem stop_semantics (s t : RunControl) (evs : List PipelineEvent)
    (hidle : s.running = false) (hrun : t.running = true) :
    handleStopSimulation s = Except.error StopError.notRunning ∧
    handleStopSimulation t = Except.ok { running := false, status := "stopped" } ∧
    (evs.foldl stepEvent { running := false, status := "stopped" }).status = "stopped" := by
  refine ⟨?_, ?_, ?_⟩
  · simp [handleStopSimulation, hidle]
  · simp [handleStopSimulation, hrun]
  · exact (stopped_invariant evs { running := false, status := "stopped" } rfl rfl).2

/-- Witness for C6: a completed idle state rejects Stop, a running state is
stopped, and the finalizer plus further events leave a stopped run stopped. -/
theorem stop_semantics_witness :
    handleStopSimulation { running := false, status := "completed" } =
      Except.error StopError.notRunning ∧
    handleStopSimulation { running := true, status := "running" } =
      Except.ok { running := false, status := "stopped" } ∧
    (([PipelineEvent.finalize, PipelineEvent.stopAttempt, PipelineEvent.consumeDate]).foldl
      stepEvent { running := false, status := "stopped" }).status = "stopped" :=
  stop_semantics { running := false, status := "completed" }
    { running := true, status := "running" }
    [PipelineEvent.finalize, PipelineEvent.stopAttempt, PipelineEvent.consumeDate] rfl rfl

/-- Claim C7: whenever Start answers with an error — already running, a
missing or malformed user id, an unknown user, a dataset load failure or an
empty grouping — the stored manager state is returned exactly as it was:
neither the running flag nor the results slot is touched. -/
theorem start_error_preserves_state (st : ManagerState) (p : Option (Option Int))
    (lk : Int → Option Int) (sp : Option Int) (ld : Except Unit (List dateGroup × Nat))
    (st2 : ManagerState) (e : StartError)
    (h : handleStartSimulation st p lk sp ld = (st2, Except.error e)) :
    st2 = st := by
  by_cases hr : st.running
  · simp [handleStartSimulation, hr] at h
    exact h.1.symm
  · rcases p with _ | p
    · simp [handleStartSimulation, hr] at h
      exact h.1.symm
    · rcases p with _ | uid
      · simp [handleStartSimulation, hr] at h
        exact h.1.symm
      · cases hlk : lk uid with
        | none =>
          simp [handleStartSimulation, hr, hlk] at h
          exact h.1.symm
        | some cid =>
          cases ld with
          | error le =>
            simp [handleStartSimulation, hr, hlk] at h
            exact h.1.symm
          | ok pair =>
            by_cases hg : pair.1.length = 0
            · simp [handleStartSimulation, hr, hlk, hg] at h
              exact h.1.symm
            · simp [handleStartSimulation, hr, hlk, hg] at h

/-- Witness for C7: with a run already in progress, Start answers
already-running and hands back the stored state untouched. -/
theorem start_error_preserves_state_witness :
    ({ running := true, results := none } : ManagerState) =
      { running := true, results := none } :=
  start_error_preserves_state { running := true, results := none } (some (some 1))
    (fun _ => some 1) none (Except.ok ([{ date := "2024-01-02", rows := [] }], 1))
    { running := true, results := none } StartError.alreadyRunning rfl
